import Mathlib

/-!
# Verification of the torvmremix cores

A shallow embedding, in Lean 4, of the parts of the repository that the
frozen claims are about:

* the controller lifecycle engine (`controller/internal/lifecycle`,
  Go: `Engine.Run` and its state handlers, `FailSafe`),
* the ring log buffer (`controller/internal/logging/ringwriter.go`),
* the Windows network manager's `RestoreConfig` path
  (`controller/internal/network/network_windows.go`, the HMAC-bearing
  variant),
* the Android packet codecs (`packet/IPv4Header.kt`, `TcpHeader.kt`,
  `UdpHeader.kt`, `Checksum.kt`),
* the TCP session manager (`tcp/TcpSessionManager.kt`), and
* the DNS relay (`dns/DnsRelay.kt`).

Bytes are modelled as `Nat` values; every read of a byte applies `% 256`,
mirroring the sources' `and 0xFF` masking (Kotlin bytes are signed) and every
byte store applies `% 256`, mirroring `.toByte()` truncation.  Bit-packing of
disjoint fields (`(a shl k) or b` with `b < 2^k`) is written arithmetically as
`a * 2^k + b`, and field extraction (`x ushr k`, `x and (2^k - 1)`) as
`x / 2^k`, `x % 2^k`.  Unsigned 32-bit wrap (`and 0xFFFFFFFFL`) is `% 2^32`.
Side effects are made explicit: emitted packets are collected in lists, and
externally visible events (RestoreConfig invocations, failsafe activation,
`netsh exec` execution) are recorded in the returned state.
-/

namespace TorVM

/-! ## Packet codec data model (packet/*.kt) -/

/-- `IPv4Header.kt`: parsed IPv4 header fields.  Addresses are 4-byte lists. -/
structure IPv4Header where
  version : Nat
  ihl : Nat
  tos : Nat
  totalLength : Nat
  identification : Nat
  flags : Nat
  fragmentOffset : Nat
  ttl : Nat
  protocol : Nat
  headerChecksum : Nat
  sourceAddress : List Nat
  destAddress : List Nat
deriving DecidableEq

/-- `TcpHeader.kt`: parsed TCP header fields.  `sequenceNumber` and
`ackNumber` are unsigned 32-bit quantities (Kotlin stores them in a `Long`). -/
structure TcpHeader where
  sourcePort : Nat
  destPort : Nat
  sequenceNumber : Nat
  ackNumber : Nat
  dataOffset : Nat
  reserved : Nat
  flags : Nat
  window : Nat
  checksum : Nat
  urgentPointer : Nat
deriving DecidableEq

/-- `UdpHeader.kt`: parsed UDP header fields. -/
structure UdpHeader where
  sourcePort : Nat
  destPort : Nat
  length : Nat
  checksum : Nat
deriving DecidableEq

def FLAG_FIN : Nat := 0x001
def FLAG_SYN : Nat := 0x002
def FLAG_RST : Nat := 0x004
def FLAG_PSH : Nat := 0x008
def FLAG_ACK : Nat := 0x010

/-- `TcpHeader.isSyn`: `(flags and FLAG_SYN) != 0`. -/
def TcpHeader.isSyn (h : TcpHeader) : Bool := h.flags / 2 % 2 == 1

/-- `TcpHeader.isAck`: `(flags and FLAG_ACK) != 0`. -/
def TcpHeader.isAck (h : TcpHeader) : Bool := h.flags / 16 % 2 == 1

/-! ### Checksum.kt -/

/-- The 16-bit-word summation loop of `Checksum.ipChecksum`: sums big-endian
16-bit words, padding a final odd byte with zero. -/
def sumWords : List Nat → Nat
  | a :: b :: rest => (a % 256) * 256 + b % 256 + sumWords rest
  | [a] => (a % 256) * 256
  | [] => 0

/-- The carry-folding loop of `Checksum.ipChecksum`
(`while (sum shr 16 != 0) sum = (sum and 0xFFFF) + (sum shr 16)`), written
with explicit fuel so that it reduces definitionally.  Each iteration on an
argument `≥ 2^16` strictly decreases it, so fuel `s` always suffices for
starting value `s`. -/
def foldCarryAux : Nat → Nat → Nat
  | 0, s => s
  | fuel + 1, s => if s < 65536 then s else foldCarryAux fuel (s % 65536 + s / 65536)

def foldCarry (s : Nat) : Nat := foldCarryAux s s

/-- `Checksum.ipChecksum` over a whole byte list (offset 0, length = size):
one's-complement of the folded 16-bit word sum.  `(sum.toInt().inv()) and
0xFFFF` equals `65535 - sum` for `sum < 65536`. -/
def ipChecksum (data : List Nat) : Nat := 65535 - foldCarry (sumWords data)

/-! ### IPv4Header.kt -/

/-- `IPv4Header.parse(buffer, offset)`.  The `require` failures
(`IllegalArgumentException`) are modelled as `none`. -/
def ipv4Parse (buffer : List Nat) (offset : Nat) : Option IPv4Header :=
  if buffer.length - offset < 20 then none else
  let versionIhl := buffer.getD offset 0 % 256
  let version := versionIhl / 16
  let ihl := versionIhl % 16
  if version ≠ 4 then none else
  if ihl < 5 then none else
  if buffer.length - offset < ihl * 4 then none else
  some {
    version := version
    ihl := ihl
    tos := buffer.getD (offset + 1) 0 % 256
    totalLength := buffer.getD (offset + 2) 0 % 256 * 256 + buffer.getD (offset + 3) 0 % 256
    identification := buffer.getD (offset + 4) 0 % 256 * 256 + buffer.getD (offset + 5) 0 % 256
    flags := (buffer.getD (offset + 6) 0 % 256 * 256 + buffer.getD (offset + 7) 0 % 256) / 8192
    fragmentOffset := (buffer.getD (offset + 6) 0 % 256 * 256 + buffer.getD (offset + 7) 0 % 256) % 8192
    ttl := buffer.getD (offset + 8) 0 % 256
    protocol := buffer.getD (offset + 9) 0 % 256
    headerChecksum := buffer.getD (offset + 10) 0 % 256 * 256 + buffer.getD (offset + 11) 0 % 256
    sourceAddress := [buffer.getD (offset + 12) 0 % 256, buffer.getD (offset + 13) 0 % 256,
                      buffer.getD (offset + 14) 0 % 256, buffer.getD (offset + 15) 0 % 256]
    destAddress := [buffer.getD (offset + 16) 0 % 256, buffer.getD (offset + 17) 0 % 256,
                    buffer.getD (offset + 18) 0 % 256, buffer.getD (offset + 19) 0 % 256] }

/-- `IPv4Header.toBytes()`: serializes `ihl * 4` bytes (option bytes beyond
the fixed 20 are left zero, as Kotlin's fresh `ByteArray` leaves them), with
the checksum recomputed over the bytes with the checksum field zeroed.
`parse` always produces 4-byte addresses; `getD` reads them back. -/
def ipv4ToBytes (h : IPv4Header) : List Nat :=
  let base : List Nat :=
    [(h.version * 16 + h.ihl) % 256, h.tos % 256,
     h.totalLength / 256 % 256, h.totalLength % 256,
     h.identification / 256 % 256, h.identification % 256,
     (h.flags * 8192 + h.fragmentOffset) / 256 % 256, (h.flags * 8192 + h.fragmentOffset) % 256,
     h.ttl % 256, h.protocol % 256,
     0, 0,
     h.sourceAddress.getD 0 0 % 256, h.sourceAddress.getD 1 0 % 256,
     h.sourceAddress.getD 2 0 % 256, h.sourceAddress.getD 3 0 % 256,
     h.destAddress.getD 0 0 % 256, h.destAddress.getD 1 0 % 256,
     h.destAddress.getD 2 0 % 256, h.destAddress.getD 3 0 % 256]
    ++ List.replicate (h.ihl * 4 - 20) 0
  let ck := ipChecksum base
  (base.set 10 (ck / 256 % 256)).set 11 (ck % 256)

/-! ### TcpHeader.kt -/

/-- `TcpHeader.parse(buffer, offset)`. -/
def tcpParse (buffer : List Nat) (offset : Nat) : Option TcpHeader :=
  if buffer.length - offset < 20 then none else
  let byte12 := buffer.getD (offset + 12) 0 % 256
  let dataOffset := byte12 / 16
  if dataOffset < 5 then none else
  some {
    sourcePort := buffer.getD offset 0 % 256 * 256 + buffer.getD (offset + 1) 0 % 256
    destPort := buffer.getD (offset + 2) 0 % 256 * 256 + buffer.getD (offset + 3) 0 % 256
    sequenceNumber := buffer.getD (offset + 4) 0 % 256 * 16777216 +
      buffer.getD (offset + 5) 0 % 256 * 65536 +
      buffer.getD (offset + 6) 0 % 256 * 256 + buffer.getD (offset + 7) 0 % 256
    ackNumber := buffer.getD (offset + 8) 0 % 256 * 16777216 +
      buffer.getD (offset + 9) 0 % 256 * 65536 +
      buffer.getD (offset + 10) 0 % 256 * 256 + buffer.getD (offset + 11) 0 % 256
    dataOffset := dataOffset
    reserved := byte12 / 2 % 8
    flags := byte12 % 2 * 256 + buffer.getD (offset + 13) 0 % 256
    window := buffer.getD (offset + 14) 0 % 256 * 256 + buffer.getD (offset + 15) 0 % 256
    checksum := buffer.getD (offset + 16) 0 % 256 * 256 + buffer.getD (offset + 17) 0 % 256
    urgentPointer := buffer.getD (offset + 18) 0 % 256 * 256 + buffer.getD (offset + 19) 0 % 256 }

/-- `TcpHeader.toBytes()`: serializes `dataOffset * 4` bytes; the checksum
field is written as stored (not recomputed); option bytes beyond 20 are
zero. -/
def tcpToBytes (h : TcpHeader) : List Nat :=
  let seq := h.sequenceNumber % 4294967296
  let ack := h.ackNumber % 4294967296
  let ns := h.flags / 256 % 2
  [h.sourcePort / 256 % 256, h.sourcePort % 256,
   h.destPort / 256 % 256, h.destPort % 256,
   seq / 16777216 % 256, seq / 65536 % 256, seq / 256 % 256, seq % 256,
   ack / 16777216 % 256, ack / 65536 % 256, ack / 256 % 256, ack % 256,
   (h.dataOffset * 16 + h.reserved * 2 + ns) % 256, h.flags % 256,
   h.window / 256 % 256, h.window % 256,
   h.checksum / 256 % 256, h.checksum % 256,
   h.urgentPointer / 256 % 256, h.urgentPointer % 256]
  ++ List.replicate (h.dataOffset * 4 - 20) 0

/-! ### UdpHeader.kt -/

/-- `UdpHeader.parse(buffer, offset)`. -/
def udpParse (buffer : List Nat) (offset : Nat) : Option UdpHeader :=
  if buffer.length - offset < 8 then none else
  some {
    sourcePort := buffer.getD offset 0 % 256 * 256 + buffer.getD (offset + 1) 0 % 256
    destPort := buffer.getD (offset + 2) 0 % 256 * 256 + buffer.getD (offset + 3) 0 % 256
    length := buffer.getD (offset + 4) 0 % 256 * 256 + buffer.getD (offset + 5) 0 % 256
    checksum := buffer.getD (offset + 6) 0 % 256 * 256 + buffer.getD (offset + 7) 0 % 256 }

/-- `UdpHeader.toBytes()`: 8 bytes, checksum written as stored. -/
def udpToBytes (h : UdpHeader) : List Nat :=
  [h.sourcePort / 256 % 256, h.sourcePort % 256,
   h.destPort / 256 % 256, h.destPort % 256,
   h.length / 256 % 256, h.length % 256,
   h.checksum / 256 % 256, h.checksum % 256]

/-! ## TCP session manager (tcp/TcpSessionManager.kt, tcp/TcpSession.kt) -/

/-- `TcpSession.kt` `SessionKey`: 4-tuple with structural (content) equality;
addresses are 4-byte lists. -/
structure SessionKey where
  srcAddr : List Nat
  srcPort : Nat
  dstAddr : List Nat
  dstPort : Nat
deriving DecidableEq

/-- The argument tuple the manager hands to `PacketBuilder.buildTcpPacket`
and then to `TunWriter.write`; one value = one packet written to the
tunnel. -/
structure TcpPacketSpec where
  srcAddr : List Nat
  dstAddr : List Nat
  srcPort : Nat
  dstPort : Nat
  seqNum : Nat
  ackNum : Nat
  flags : Nat
  window : Nat
  payload : List Nat
deriving DecidableEq

/-- `TcpSessionManager.MAX_SESSIONS`. -/
def MAX_SESSIONS : Nat := 1024

/-- The manager treats each `TcpSession` through this interface only:
create it on a SYN, feed it a packet (which may mutate it and write packets
to the tunnel), ask whether it is closed, and close it.  The manager-level
claims hold for every session behaviour, so the session body
(`TcpSession.kt`) is a parameter. -/
structure SessModel (σ : Type) where
  create : SessionKey → σ
  handle : σ → IPv4Header → TcpHeader → List Nat → σ × List TcpPacketSpec
  isClosed : σ → Bool
  close : σ → σ

/-- The manager's session table (`ConcurrentHashMap<SessionKey, TcpSession>`),
as an association list with unique keys. -/
structure Manager (σ : Type) where
  sessions : List (SessionKey × σ)

def Manager.size {σ : Type} (m : Manager σ) : Nat := m.sessions.length

/-- `sessions[key]` lookup. -/
def lookupKey {σ : Type} : List (SessionKey × σ) → SessionKey → Option σ
  | [], _ => none
  | (k', s) :: rest, k => if k' = k then some s else lookupKey rest k

/-- `sessions.remove(key)`: drop the entry with this key, if present. -/
def removeKey {σ : Type} : List (SessionKey × σ) → SessionKey → List (SessionKey × σ)
  | [], _ => []
  | (k', s) :: rest, k => if k' = k then removeKey rest k else (k', s) :: removeKey rest k

/-- In-place mutation of the session stored under an existing key (the Kotlin
map holds a reference; `session.handlePacket` mutates the referent). -/
def setKey {σ : Type} : List (SessionKey × σ) → SessionKey → σ → List (SessionKey × σ)
  | [], _, _ => []
  | (k', s) :: rest, k, v => if k' = k then (k, v) :: rest else (k', s) :: setKey rest k v

/-- `TcpSessionManager.sendRst`: RST+ACK with `seq` = the segment's ack
number and `ack` = the segment's sequence number (plus 1 mod 2^32 when the
segment has SYN set). -/
def sendRst (ip : IPv4Header) (tcp : TcpHeader) : TcpPacketSpec :=
  let ackNum := if tcp.isSyn then (tcp.sequenceNumber + 1) % 4294967296 else tcp.sequenceNumber
  { srcAddr := ip.destAddress
    dstAddr := ip.sourceAddress
    srcPort := tcp.destPort
    dstPort := tcp.sourcePort
    seqNum := tcp.ackNumber
    ackNum := ackNum
    flags := FLAG_RST + FLAG_ACK
    window := 0
    payload := [] }

/-- The key the manager builds for an incoming segment. -/
def keyOf (ip : IPv4Header) (tcp : TcpHeader) : SessionKey :=
  { srcAddr := ip.sourceAddress
    srcPort := tcp.sourcePort
    dstAddr := ip.destAddress
    dstPort := tcp.destPort }

/-- `TcpSessionManager.handlePacket`: returns the updated manager and the
list of packets written to the tunnel while handling this segment. -/
def Manager.handlePacket {σ : Type} (M : SessModel σ) (m : Manager σ)
    (ip : IPv4Header) (tcp : TcpHeader) (payload : List Nat) :
    Manager σ × List TcpPacketSpec :=
  let key := keyOf ip tcp
  if tcp.isSyn && !tcp.isAck then
    -- Enforce session limit to prevent SYN flood exhaustion
    if MAX_SESSIONS ≤ m.size then (m, [sendRst ip tcp])
    else
      -- New connection: remove any stale session with the same key, insert
      -- a fresh session, and feed it the segment.  The `?.close()` on the
      -- evicted entry only cancels its upstream and sets its own state
      -- (`TcpSession.close` writes nothing to the tunnel), so eviction is
      -- its removal from the table.
      let cleaned := removeKey m.sessions key
      let s0 := M.create key
      let (s1, out) := M.handle s0 ip tcp payload
      ({ sessions := (key, s1) :: cleaned }, out)
  else
    match lookupKey m.sessions key with
    | some s =>
      let (s', out) := M.handle s ip tcp payload
      if M.isClosed s' then ({ sessions := removeKey m.sessions key }, out)
      else ({ sessions := setKey m.sessions key s' }, out)
    | none => (m, [sendRst ip tcp])

/-- Feed a list of segments through the manager in order (table only). -/
def Manager.runPackets {σ : Type} (M : SessModel σ) (m : Manager σ) :
    List (IPv4Header × TcpHeader × List Nat) → Manager σ
  | [] => m
  | (ip, tcp, pl) :: rest =>
    Manager.runPackets M (Manager.handlePacket M m ip tcp pl).1 rest

/-! ## Lifecycle engine (lifecycle: `Engine.Run`, `FailSafe`)

The Go `Engine.Run` loop is embedded as a step function: one iteration of
the `for` loop is one step.  The engine state carries the fields the claims
observe (`state`, whether `savedNet` is stored, the failsafe flag) plus
ghost counters recording externally visible events: how many times the
`doRestoreNetwork` body ran, how many times `RestoreConfig` was invoked on
the saved blob, how many times the `Shutdown` state was entered via
`transition`, how many times `doCleanup` ran, and the failsafe flag at the
first entry into `Shutdown`.

The environment models the externals: from which loop iteration on
`ctx.Err()` is non-nil (Go context cancellation is permanent), which state
handlers fail, and whether `VM.Wait` reports an unexpected VM exit. -/

inductive LState where
  | init | checkPrivileges | saveNetwork | createTAP | launchVM | waitTAP
  | configureTAP | flushDNS | waitBootstrap | running | shutdown
  | restoreNetwork | cleanup | failed
deriving DecidableEq

structure Engine where
  state : LState
  savedNet : Bool
  failsafe : Bool
  restoreRuns : Nat
  restoreConfigCalls : Nat
  shutdownEnters : Nat
  cleanupRuns : Nat
  fsAtShutdown : Option Bool
deriving DecidableEq

structure Env where
  cancelFrom : Option Nat
  errAt : LState → Bool
  vmExitUnexpected : Bool

/-- `ctx.Err() != nil` at loop iteration `t`. -/
def Env.cancelled (env : Env) (t : Nat) : Bool :=
  match env.cancelFrom with
  | none => false
  | some k => Nat.ble k t

/-- `Engine.transition(next)`: set the state, recording shutdown entries and
the failsafe flag at the moment the `Shutdown` state first begins. -/
def Engine.transition (e : Engine) (next : LState) : Engine :=
  { e with
    state := next
    shutdownEnters := if next = LState.shutdown then e.shutdownEnters + 1 else e.shutdownEnters
    fsAtShutdown :=
      if next = LState.shutdown then
        match e.fsAtShutdown with
        | none => some e.failsafe
        | some b => some b
      else e.fsAtShutdown }

/-- `FailSafe.Activate` (idempotent; also tears down routing, which has no
engine-visible effect). -/
def Engine.activateFS (e : Engine) : Engine := { e with failsafe := true }

/-- `FailSafe.Deactivate` (idempotent). -/
def Engine.deactivateFS (e : Engine) : Engine := { e with failsafe := false }

/-- The shared error path at the bottom of the `Run` loop:
`e.FailSafe.Activate(); e.transition(StateShutdown)`. -/
def Engine.errStep (e : Engine) : Engine := e.activateFS.transition LState.shutdown

/-- One loop iteration either continues with a new engine state or returns
from `Run` (with `err = true` when the returned error is non-nil). -/
inductive StepRes where
  | next (e : Engine)
  | done (e : Engine) (err : Bool)
deriving DecidableEq

/-- A state handler that on failure takes the error path and on success
transitions to `next` (doSaveNetwork, doCreateTAP, doLaunchVM, doWaitTAP,
doConfigureTAP, doWaitBootstrap). -/
def Engine.fallible (env : Env) (e : Engine) (s next : LState) : StepRes :=
  if env.errAt s then StepRes.next e.errStep
  else StepRes.next (e.transition next)

/-- One iteration of the `for` loop in `Engine.Run`: first the top-of-loop
cancellation check (`if ctx.Err() != nil { e.transition(StateShutdown) }`),
then the `switch` on the (possibly just overwritten) current state. -/
def Engine.runStep (env : Env) (t : Nat) (e : Engine) : StepRes :=
  let e := if env.cancelled t then e.transition LState.shutdown else e
  match e.state with
  | LState.init => StepRes.next (e.transition LState.checkPrivileges)
  | LState.checkPrivileges =>
    -- `if err := checkPrivileges(); err != nil { return err }`:
    -- returns directly, without FailSafe.Activate or Shutdown.
    if env.errAt LState.checkPrivileges then StepRes.done e true
    else StepRes.next (e.transition LState.saveNetwork)
  | LState.saveNetwork =>
    if env.errAt LState.saveNetwork then StepRes.next e.errStep
    else StepRes.next (({ e with savedNet := true }).transition LState.createTAP)
  | LState.createTAP => e.fallible env LState.createTAP LState.launchVM
  | LState.launchVM => e.fallible env LState.launchVM LState.waitTAP
  | LState.waitTAP => e.fallible env LState.waitTAP LState.configureTAP
  | LState.configureTAP => e.fallible env LState.configureTAP LState.flushDNS
  | LState.flushDNS =>
    -- doFlushDNS logs a failure but returns nil: never an error transition.
    StepRes.next (e.transition LState.waitBootstrap)
  | LState.waitBootstrap => e.fallible env LState.waitBootstrap LState.running
  | LState.running =>
    -- doRunning: Deactivate the failsafe, block on VM.Wait(ctx); on an
    -- unexpected exit (error while ctx not cancelled) reactivate it; always
    -- transition to Shutdown and return nil.
    let e := e.deactivateFS
    let e := if env.vmExitUnexpected && !env.cancelled (t + 1) then e.activateFS else e
    StepRes.next (e.transition LState.shutdown)
  | LState.shutdown =>
    -- doShutdown: bounded VM stop (no engine-visible effect), returns nil.
    StepRes.next (e.transition LState.restoreNetwork)
  | LState.restoreNetwork =>
    -- doRestoreNetwork: TeardownRouting; RestoreConfig(savedNet) if stored;
    -- DestroyTAP; returns nil.
    let e := { e with
      restoreRuns := e.restoreRuns + 1
      restoreConfigCalls :=
        if e.savedNet then e.restoreConfigCalls + 1 else e.restoreConfigCalls }
    StepRes.next (e.transition LState.cleanup)
  | LState.cleanup =>
    -- doCleanup: Deactivate the failsafe; Run returns nil.
    StepRes.done { e.deactivateFS with cleanupRuns := e.cleanupRuns + 1 } false
  | LState.failed => StepRes.done e true

/-- Run the loop with `fuel` iterations starting at iteration index `t`;
`none` means `Run` has not returned within `fuel` iterations. -/
def Engine.runFuel (env : Env) : Nat → Nat → Engine → Option (Engine × Bool)
  | 0, _, _ => none
  | fuel + 1, t, e =>
    match e.runStep env t with
    | StepRes.next e' => Engine.runFuel env fuel (t + 1) e'
    | StepRes.done e' err => some (e', err)

/-- The engine after `n` loop iterations (frozen once `Run` returns). -/
def Engine.iter (env : Env) : Nat → Nat → Engine → Engine
  | 0, _, e => e
  | n + 1, t, e =>
    match e.runStep env t with
    | StepRes.next e' => Engine.iter env n (t + 1) e'
    | StepRes.done e' _ => e'

/-- A fresh engine (`NewEngine`): `state = StateInit`, no saved config, the
failsafe inactive. -/
def Engine.start : Engine :=
  { state := LState.init, savedNet := false, failsafe := false,
    restoreRuns := 0, restoreConfigCalls := 0, shutdownEnters := 0,
    cleanupRuns := 0, fsAtShutdown := none }

/-! ## Ring log buffer (logging/ringwriter.go)

Byte strings are modelled as `List Char`.  `carry` is the Go field holding
the trailing incomplete line between writes. -/

structure RingWriter where
  lines : List (List Char)
  capacity : Nat
  pos : Nat
  full : Bool
  carry : List Char
deriving DecidableEq

/-- The line-extraction loop of `RingWriter.Write`: split the data at each
`'\n'`, returning the complete lines and the trailing incomplete rest. -/
def splitNl : List Char → List (List Char) × List Char
  | [] => ([], [])
  | c :: rest =>
    let (ls, p) := splitNl rest
    if c = '\n' then ([] :: ls, p)
    else
      match ls with
      | [] => ([], c :: p)
      | l :: ls' => ((c :: l) :: ls', p)

/-- Store one complete line in the ring
(`r.lines[r.pos] = line; r.pos++; if r.pos >= r.capacity { r.pos = 0;
r.full = true }`).  With capacity 0 the Go code panics on the out-of-range
store; here the store is a no-op (the claims concern positive capacity). -/
def RingWriter.pushLine (r : RingWriter) (line : List Char) : RingWriter :=
  let lines := r.lines.set r.pos line
  if r.capacity ≤ r.pos + 1 then { r with lines := lines, pos := 0, full := true }
  else { r with lines := lines, pos := r.pos + 1 }

/-- `RingWriter.Write(p)`: prepend the carried partial line, extract the
complete lines into the ring, and keep the rest as the new carry. -/
def RingWriter.write (r : RingWriter) (p : List Char) : RingWriter :=
  let (newLines, rest) := splitNl (r.carry ++ p)
  let r' := newLines.foldl RingWriter.pushLine { r with carry := [] }
  { r' with carry := rest }

/-- `RingWriter.Lines()`: the stored lines in chronological order. -/
def RingWriter.linesOut (r : RingWriter) : List (List Char) :=
  if !r.full then r.lines.take r.pos
  else r.lines.drop r.pos ++ r.lines.take r.pos

/-- `NewRingWriter(capacity)`. -/
def newRingWriter (capacity : Nat) : RingWriter :=
  { lines := List.replicate capacity [], capacity := capacity, pos := 0,
    full := false, carry := [] }

/-- A sequence of `Write` calls. -/
def RingWriter.writeAll (r : RingWriter) (ps : List (List Char)) : RingWriter :=
  ps.foldl RingWriter.write r

/-- The last `n` elements of a list, in order. -/
def lastN {α : Type} (n : Nat) (l : List α) : List α := l.drop (l.length - n)

/-- The ring invariant: after `written` complete lines have been pushed
into a ring of capacity `c`, the buffer's fields track them, and `Lines()`
is exactly the most recent `c` of them in chronological order. -/
def RWInv (c : Nat) (written : List (List Char)) (r : RingWriter) : Prop :=
  r.capacity = c ∧ r.lines.length = c ∧
  (if r.full then r.pos < c ∧ c ≤ written.length
   else r.pos = written.length ∧ written.length < c) ∧
  r.linesOut = lastN c written

/-! ## DNS relay (dns/DnsRelay.kt) -/

/-- Outcome of the upstream exchange: either the socket read timed out (or
another I/O failure occurred) or a datagram with these bytes arrived. -/
inductive DnsUpstream where
  | timeout
  | reply (bytes : List Nat)

/-- The argument tuple `DnsRelay` hands to `PacketBuilder.buildUdpPacket`
before `TunWriter.write`. -/
structure UdpPacketSpec where
  srcAddr : List Nat
  dstAddr : List Nat
  srcPort : Nat
  dstPort : Nat
  payload : List Nat
deriving DecidableEq

/-- `DnsRelay.forwardDnsQuery`: `none` models a thrown exception (query too
short, socket timeout, or transaction-ID mismatch).  The receive buffer is
4096 bytes, so at most 4096 bytes of the reply are seen; the first two
octets of query and reply must agree. -/
def forwardDnsQuery (query : List Nat) (up : DnsUpstream) : Option (List Nat) :=
  if query.length < 2 then none else
  match up with
  | DnsUpstream.timeout => none
  | DnsUpstream.reply bytes =>
    let recvd := bytes.take 4096
    if recvd.length < 2 then none
    else if recvd.getD 0 0 % 256 ≠ query.getD 0 0 % 256 then none
    else if recvd.getD 1 0 % 256 ≠ query.getD 1 0 % 256 then none
    else some recvd

/-- `DnsRelay.handlePacket`: the launched task first tries the concurrency
semaphore (`acquired`); any exception from `forwardDnsQuery` is swallowed
and nothing is written; on success exactly one UDP packet with source and
destination swapped is written to the tunnel. -/
def dnsHandlePacket (ip : IPv4Header) (udp : UdpHeader) (payload : List Nat)
    (up : DnsUpstream) (acquired : Bool) : Option UdpPacketSpec :=
  if !acquired then none else
  match forwardDnsQuery payload up with
  | none => none
  | some resp =>
    some { srcAddr := ip.destAddress
           dstAddr := ip.sourceAddress
           srcPort := udp.destPort
           dstPort := udp.sourcePort
           payload := resp }

/-! ## Windows network manager RestoreConfig
(network/network_windows.go, HMAC-bearing variant)

The saved blob's payload is modelled as its list of scanner lines (the Go
code only ever inspects `cfg.Data` line by line).  HMAC-SHA256 itself is an
opaque parameter `hm : key → data → hex digest`; every theorem holds for
every such function.  The `SavedConfig.HMAC` field accompanies this variant
of the manager (the committed `network.go` in the snapshot lacks it). -/

structure SavedConfig where
  data : List String
  platform : String
  hmac : String
deriving DecidableEq

/-- `windowsManager`: the session HMAC key is `none` when `rand.Read`
failed (documented degraded mode without integrity checking). -/
structure WindowsManager where
  sessionKey : Option (List Nat)

/-- The fixed allowlist of `validateNetshDump`. -/
def netshAllowlist : List String :=
  ["set address", "add dns", "set dns",
   "add wins", "set wins",
   "pushd", "popd",
   "set interface",
   "add address"]

/-- One line passes `validateNetshDump`: blank, comment, or lowercased
leading token in the allowlist. -/
def netshLineOk (line : String) : Bool :=
  let l := line.trim
  l = "" || l.startsWith "#" || l.startsWith "rem " ||
    netshAllowlist.any (fun p => l.toLower.startsWith p)

/-- `validateNetshDump`: `true` iff no line is rejected (the Go function
returns an error naming the first offending line). -/
def validateNetshDump (data : List String) : Bool := data.all netshLineOk

/-- `windowsManager.computeHMAC` (empty string when no session key). -/
def computeHMAC (hm : List Nat → List String → String) (m : WindowsManager)
    (data : List String) : String :=
  match m.sessionKey with
  | none => ""
  | some k => hm k data

/-- `windowsManager.verifyHMAC`: `true` = nil error.  With no session key
the check is skipped; otherwise an absent or mismatching HMAC fails. -/
def verifyHMAC (hm : List Nat → List String → String) (m : WindowsManager)
    (data : List String) (expected : String) : Bool :=
  match m.sessionKey with
  | none => true
  | some k =>
    if expected = "" then false
    else hm k data = expected

/-- Result of `RestoreConfig`: whether it returned a nil error, and whether
`netsh exec` was invoked on the blob. -/
structure RestoreOutcome where
  ok : Bool
  executed : Bool
deriving DecidableEq

/-- `windowsManager.RestoreConfig(cfg)`: nil/platform guard, HMAC
verification, dump validation, write of the temp file (`writeOk`), and only
then `netsh exec` (whose success is `execOk`). -/
def restoreConfig (hm : List Nat → List String → String) (m : WindowsManager)
    (cfg : Option SavedConfig) (writeOk execOk : Bool) : RestoreOutcome :=
  match cfg with
  | none => { ok := false, executed := false }
  | some cfg =>
    if cfg.platform ≠ "windows" then { ok := false, executed := false }
    else if !verifyHMAC hm m cfg.data cfg.hmac then { ok := false, executed := false }
    else if !validateNetshDump cfg.data then { ok := false, executed := false }
    else if !writeOk then { ok := false, executed := false }
    else { ok := execOk, executed := true }

/-! ## Concrete instances used by witnesses and counterexamples -/

/-- A trivial session behaviour: the manager-level theorems hold for every
`SessModel`; witnesses instantiate it with this one. -/
def unitModel : SessModel Unit :=
  { create := fun _ => ()
    handle := fun s _ _ _ => (s, [])
    isClosed := fun _ => false
    close := fun s => s }

/-- An empty session table. -/
def emptyMgr : Manager Unit := { sessions := [] }

/-- A session table holding exactly 1024 entries with distinct keys
(source ports 0..1023). -/
def mgr1024 : Manager Unit :=
  { sessions :=
      ({ srcAddr := [10, 0, 0, 2], srcPort := 0,
         dstAddr := [1, 2, 3, 4], dstPort := 443 }, ()) ::
      (List.range 1023).map
        (fun i => ({ srcAddr := [10, 0, 0, 2], srcPort := i + 1,
                     dstAddr := [1, 2, 3, 4], dstPort := 443 }, ())) }

/-- A concrete IPv4 header as the manager sees it (10.0.0.2 → 1.2.3.4). -/
def ipW : IPv4Header :=
  { version := 4, ihl := 5, tos := 0, totalLength := 40, identification := 0,
    flags := 2, fragmentOffset := 0, ttl := 64, protocol := 6,
    headerChecksum := 0, sourceAddress := [10, 0, 0, 2],
    destAddress := [1, 2, 3, 4] }

/-- A SYN (no ACK) segment on source port 2000 — its key is not among
`mgr1024`'s. -/
def tcpSynFresh : TcpHeader :=
  { sourcePort := 2000, destPort := 443, sequenceNumber := 1000,
    ackNumber := 0, dataOffset := 5, reserved := 0, flags := FLAG_SYN,
    window := 65535, checksum := 0, urgentPointer := 0 }

/-- A SYN (no ACK) segment on source port 0 — its key is `mgr1024`'s first
entry. -/
def tcpSynKnown : TcpHeader :=
  { sourcePort := 0, destPort := 443, sequenceNumber := 1000,
    ackNumber := 0, dataOffset := 5, reserved := 0, flags := FLAG_SYN,
    window := 65535, checksum := 0, urgentPointer := 0 }

/-- A pure ACK segment (no SYN) with `seq = 100`, `ack = 200`. -/
def tcpAckOnly : TcpHeader :=
  { sourcePort := 55000, destPort := 443, sequenceNumber := 100,
    ackNumber := 200, dataOffset := 5, reserved := 0, flags := FLAG_ACK,
    window := 65535, checksum := 0, urgentPointer := 0 }

/-- Environment for C1: no handler fails, the context is cancelled from
loop iteration 3 on — i.e. just after `SaveNetwork` succeeded and stored
the blob. -/
def envC1 : Env :=
  { cancelFrom := some 3, errAt := fun _ => false, vmExitUnexpected := false }

/-- Environment for C2: the context is cancelled from the very first
iteration (cancellation before `Running`, staying cancelled forever). -/
def envC2 : Env :=
  { cancelFrom := some 0, errAt := fun _ => false, vmExitUnexpected := false }

/-- Environment for the C3 counterexample: only `checkPrivileges` fails. -/
def envC3 : Env :=
  { cancelFrom := none,
    errAt := fun s => decide (s = LState.checkPrivileges),
    vmExitUnexpected := false }

/-- Environment for the C3 witness: only `doSaveNetwork` fails. -/
def envC3W : Env :=
  { cancelFrom := none,
    errAt := fun s => decide (s = LState.saveNetwork),
    vmExitUnexpected := false }

/-- An engine whose current state is `SaveNetwork`. -/
def engineAtSave : Engine := { Engine.start with state := LState.saveNetwork }

/-- A well-formed 20-byte IPv4 header whose stored checksum (0x66E2) equals
the recomputed one. -/
def bytesIpW : List Nat :=
  [0x45, 0, 0, 0x14, 0, 0, 0, 0, 0x40, 6, 0x66, 0xE2, 10, 0, 0, 1, 10, 0, 0, 2]

/-- The same header bytes with the stored checksum zeroed: still accepted by
`parse` (which never verifies the checksum), but `toBytes` recomputes it. -/
def bytesIpZeroCk : List Nat :=
  [0x45, 0, 0, 0x14, 0, 0, 0, 0, 0x40, 6, 0, 0, 10, 0, 0, 1, 10, 0, 0, 2]

/-- The parse of `bytesIpW`. -/
def hdrIpW : IPv4Header :=
  { version := 4, ihl := 5, tos := 0, totalLength := 20, identification := 0,
    flags := 0, fragmentOffset := 0, ttl := 64, protocol := 6,
    headerChecksum := 26338, sourceAddress := [10, 0, 0, 1],
    destAddress := [10, 0, 0, 2] }

/-- A 20-byte TCP header (data offset 5). -/
def bytesTcpW : List Nat :=
  [1, 2, 3, 4, 5, 6, 7, 8, 9, 10, 11, 12, 0x50, 0x12, 13, 14, 15, 16, 17, 18]

/-- The parse of `bytesTcpW`. -/
def hdrTcpW : TcpHeader :=
  { sourcePort := 258, destPort := 772, sequenceNumber := 84281096,
    ackNumber := 151653132, dataOffset := 5, reserved := 0, flags := 18,
    window := 3342, checksum := 3856, urgentPointer := 4370 }

/-- An 8-byte UDP header. -/
def bytesUdpW : List Nat := [1, 2, 3, 4, 5, 6, 7, 8]

/-- The parse of `bytesUdpW`. -/
def hdrUdpW : UdpHeader :=
  { sourcePort := 258, destPort := 772, length := 1286, checksum := 1800 }

/-- A UDP header as the DNS relay sees it (port 44444 → 53). -/
def udpHdrDnsW : UdpHeader :=
  { sourcePort := 44444, destPort := 53, length := 20, checksum := 0 }

/-- A windows manager with a session key present. -/
def winMgrW : WindowsManager := { sessionKey := some [1, 2, 3] }

/-- A fixed stand-in HMAC function for witnesses (the theorems hold for
every HMAC function). -/
def hmW : List Nat → List String → String := fun _ _ => "aa"

/-- A saved blob carrying an HMAC that `hmW` does not reproduce. -/
def cfgBadHmac : SavedConfig :=
  { data := ["pushd interface ip"], platform := "windows", hmac := "bb" }

/-- The write sequence for the ring-buffer witness. -/
def psW : List (List Char) := ["a\nb".toList, "\nc\nd\n".toList]

/-- The 32-byte reply the DNS witness receives (leading octets 0xAB 0xCD). -/
def dnsReplyW : List Nat := [0xAB, 0xCD] ++ List.replicate 30 0

/-- The UDP packet the relay writes back for the DNS witness. -/
def pktDnsW : UdpPacketSpec :=
  { srcAddr := [1, 2, 3, 4], dstAddr := [10, 0, 0, 2],
    srcPort := 53, dstPort := 44444, payload := dnsReplyW }

/-! ## Lemmas: session table sizes -/

theorem removeKey_length_le {σ : Type} (l : List (SessionKey × σ)) (k : SessionKey) :
    (removeKey l k).length ≤ l.length := by
  induction l with
  | nil => simp [removeKey]
  | cons p rest ih =>
    obtain ⟨k', s⟩ := p
    by_cases h : k' = k <;> simp [removeKey, h] <;> omega

theorem setKey_length {σ : Type} (l : List (SessionKey × σ)) (k : SessionKey) (v : σ) :
    (setKey l k v).length = l.length := by
  induction l with
  | nil => simp [setKey]
  | cons p rest ih =>
    obtain ⟨k', s⟩ := p
    by_cases h : k' = k <;> simp [setKey, h, ih]

/-- One manager dispatch never pushes the table above the cap. -/
theorem handlePacket_size_le {σ : Type} (M : SessModel σ) (m : Manager σ)
    (ip : IPv4Header) (tcp : TcpHeader) (pl : List Nat)
    (h : m.size ≤ MAX_SESSIONS) :
    ((Manager.handlePacket M m ip tcp pl).1).size ≤ MAX_SESSIONS := by
  unfold Manager.handlePacket
  by_cases hsyn : (tcp.isSyn && !tcp.isAck) = true
  · rw [if_pos hsyn]
    by_cases hcap : MAX_SESSIONS ≤ m.size
    · rw [if_pos hcap]; exact h
    · rw [if_neg hcap]
      simp only [Manager.size, List.length_cons]
      have := removeKey_length_le m.sessions (keyOf ip tcp)
      simp only [Manager.size] at hcap
      omega
  · rw [if_neg hsyn]
    cases hl : lookupKey m.sessions (keyOf ip tcp) with
    | none => simpa using h
    | some s =>
      simp only
      by_cases hc : M.isClosed (M.handle s ip tcp pl).1 = true
      · simp only [hc, if_true, Manager.size]
        have := removeKey_length_le m.sessions (keyOf ip tcp)
        simp only [Manager.size] at h
        omega
      · simp only [hc]
        simpa [Manager.size, setKey_length] using h

/-- The cap invariant is preserved along any packet sequence. -/
theorem runPackets_size_le {σ : Type} (M : SessModel σ) :
    ∀ (pkts : List (IPv4Header × TcpHeader × List Nat)) (m : Manager σ),
    m.size ≤ MAX_SESSIONS → (Manager.runPackets M m pkts).size ≤ MAX_SESSIONS := by
  intro pkts
  induction pkts with
  | nil => intro m h; simpa [Manager.runPackets] using h
  | cons p rest ih =>
    intro m h
    obtain ⟨ip, tcp, pl⟩ := p
    exact ih _ (handlePacket_size_le M m ip tcp pl h)

/-! ## Claim theorems: TCP session manager -/

/-- C4: for every sequence of segments delivered to the session manager
(whatever the per-session behaviour), starting from an empty table the
session table's size never exceeds 1024; and every SYN that arrives while
the table is at (or above) the cap is answered by exactly one RST written
to the tunnel and leaves the table unchanged (no session inserted). -/
theorem c4_sessionCap (σ : Type) (M : SessModel σ)
    (pkts : List (IPv4Header × TcpHeader × List Nat)) :
    (Manager.runPackets M { sessions := [] } pkts).size ≤ 1024 ∧
    ∀ (m : Manager σ) (ip : IPv4Header) (tcp : TcpHeader) (pl : List Nat),
      1024 ≤ m.size → tcp.isSyn = true → tcp.isAck = false →
      Manager.handlePacket M m ip tcp pl = (m, [sendRst ip tcp]) := by
  constructor
  · exact runPackets_size_le M pkts _ (by simp [Manager.size])
  · intro m ip tcp pl hcap hsyn hack
    unfold Manager.handlePacket
    rw [if_pos (by simp [hsyn, hack]),
      if_pos (show MAX_SESSIONS ≤ m.size from hcap)]

/-- C4 witness: a concrete 1024-entry table rejects a concrete fresh SYN
with exactly one RST and no insertion. -/
theorem c4_sessionCap_witness :
    Manager.handlePacket unitModel mgr1024 ipW tcpSynFresh [] =
      (mgr1024, [sendRst ipW tcpSynFresh]) :=
  (c4_sessionCap Unit unitModel []).2 mgr1024 ipW tcpSynFresh []
    (by simp [mgr1024, Manager.size]) (by decide) (by decide)

/-- C5 counterexample: a pure ACK segment (`seq = 100`, `ack = 200`) on an
unknown key elicits one RST whose acknowledgment number is the segment's
sequence number 100, not the segment's ack field 200 — the claim's
"acknowledgment number equals the segment's ack field" is false. -/
theorem c5_counterexample :
    (Manager.handlePacket unitModel emptyMgr ipW tcpAckOnly []).2 =
      [sendRst ipW tcpAckOnly] ∧
    (sendRst ipW tcpAckOnly).ackNum = 100 ∧
    tcpAckOnly.ackNumber = 200 ∧
    (sendRst ipW tcpAckOnly).ackNum ≠ tcpAckOnly.ackNumber := by
  refine ⟨by decide, by decide, by decide, by decide⟩

/-- C5 (amended): a segment on an unknown key that is not a
session-creating SYN elicits exactly one RST and creates no state; the
RST's acknowledgment number equals the segment's sequence number (plus 1
mod 2^32 when the segment has SYN set) and the RST's own sequence number
equals the segment's ack field. -/
theorem c5_unknownKeyRst (σ : Type) (M : SessModel σ) (m : Manager σ)
    (ip : IPv4Header) (tcp : TcpHeader) (pl : List Nat)
    (hns : (tcp.isSyn && !tcp.isAck) = false)
    (hlk : lookupKey m.sessions (keyOf ip tcp) = none) :
    Manager.handlePacket M m ip tcp pl = (m, [sendRst ip tcp]) ∧
    (sendRst ip tcp).ackNum =
      (if tcp.isSyn then (tcp.sequenceNumber + 1) % 4294967296
       else tcp.sequenceNumber) ∧
    (sendRst ip tcp).seqNum = tcp.ackNumber := by
  refine ⟨?_, rfl, rfl⟩
  unfold Manager.handlePacket
  rw [if_neg (by simp [hns]), hlk]

/-- C5 witness: the amended statement at the concrete pure-ACK segment on
an empty table. -/
theorem c5_unknownKeyRst_witness :
    Manager.handlePacket unitModel emptyMgr ipW tcpAckOnly [] =
      (emptyMgr, [sendRst ipW tcpAckOnly]) ∧
    (sendRst ipW tcpAckOnly).ackNum =
      (if tcpAckOnly.isSyn then (tcpAckOnly.sequenceNumber + 1) % 4294967296
       else tcpAckOnly.sequenceNumber) ∧
    (sendRst ipW tcpAckOnly).seqNum = tcpAckOnly.ackNumber :=
  c5_unknownKeyRst Unit unitModel emptyMgr ipW tcpAckOnly []
    (by decide) (by decide)

/-- C10: when the table is at the 1024 cap and a SYN arrives for a key
already present, the cap check fires before the evict-and-replace step:
the manager replies with one RST and the table — including the tracked
session's entry — is left unchanged (the existing session is not closed). -/
theorem c10_capBeforeEvict (σ : Type) (M : SessModel σ) (m : Manager σ)
    (ip : IPv4Header) (tcp : TcpHeader) (pl : List Nat) (s : σ)
    (hsyn : tcp.isSyn = true) (hack : tcp.isAck = false)
    (hlk : lookupKey m.sessions (keyOf ip tcp) = some s)
    (hcap : 1024 ≤ m.size) :
    Manager.handlePacket M m ip tcp pl = (m, [sendRst ip tcp]) := by
  unfold Manager.handlePacket
  rw [if_pos (by simp [hsyn, hack]),
    if_pos (show MAX_SESSIONS ≤ m.size from hcap)]

/-- C10 witness: the concrete 1024-entry table with the SYN's key present
as its first entry. -/
theorem c10_capBeforeEvict_witness :
    Manager.handlePacket unitModel mgr1024 ipW tcpSynKnown [] =
      (mgr1024, [sendRst ipW tcpSynKnown]) :=
  c10_capBeforeEvict Unit unitModel mgr1024 ipW tcpSynKnown [] ()
    (by decide) (by decide)
    (by simp [mgr1024, lookupKey, keyOf, ipW, tcpSynKnown])
    (by simp [mgr1024, Manager.size])

/-! ## Lemmas: the cancelled engine loop

With `ctx.Err()` permanently non-nil, every iteration of `Run` first
overwrites the state with `Shutdown` (the top-of-loop check) and then the
`switch` executes `doShutdown`, which transitions to `RestoreNetwork` — so
the `RestoreNetwork` case body is never dispatched and the loop never
reaches a `return`. -/

theorem runStep_cancelled (env : Env) (t : Nat) (e : Engine)
    (hc : env.cancelled t = true) :
    Engine.runStep env t e =
      StepRes.next ((e.transition LState.shutdown).transition LState.restoreNetwork) := by
  unfold Engine.runStep
  rw [hc]
  simp [Engine.transition]

theorem transition_restoreRuns (e : Engine) (s : LState) :
    (e.transition s).restoreRuns = e.restoreRuns := rfl

theorem transition_cleanupRuns (e : Engine) (s : LState) :
    (e.transition s).cleanupRuns = e.cleanupRuns := rfl

/-- Under permanent cancellation from iteration `t` on, `Run` never
returns. -/
theorem runFuel_none_of_cancelled (env : Env) :
    ∀ (n t : Nat) (e : Engine), (∀ u, t ≤ u → env.cancelled u = true) →
    Engine.runFuel env n t e = none := by
  intro n
  induction n with
  | zero => intro t e _; rfl
  | succ n ih =>
    intro t e hc
    unfold Engine.runFuel
    rw [runStep_cancelled env t e (hc t (Nat.le_refl t))]
    exact ih (t + 1) _ (fun u hu => hc u (Nat.le_of_succ_le hu))

/-- Under permanent cancellation the `doRestoreNetwork` and `doCleanup`
bodies never execute: their ghost counters stay put. -/
theorem iter_ghost_of_cancelled (env : Env) :
    ∀ (n t : Nat) (e : Engine), (∀ u, t ≤ u → env.cancelled u = true) →
    (Engine.iter env n t e).restoreRuns = e.restoreRuns ∧
    (Engine.iter env n t e).cleanupRuns = e.cleanupRuns := by
  intro n
  induction n with
  | zero => intro t e _; exact ⟨rfl, rfl⟩
  | succ n ih =>
    intro t e hc
    unfold Engine.iter
    rw [runStep_cancelled env t e (hc t (Nat.le_refl t))]
    exact ih (t + 1) _ (fun u hu => hc u (Nat.le_of_succ_le hu))

theorem envC1_cancelled_from_three : ∀ u, 3 ≤ u → envC1.cancelled u = true := by
  intro u hu
  simp [envC1, Env.cancelled, Nat.ble_eq]
  omega

theorem envC2_cancelled : ∀ u, 0 ≤ u → envC2.cancelled u = true := by
  intro u _
  simp [envC2, Env.cancelled, Nat.ble_eq]

/-! ## Claim theorems: lifecycle engine -/

/-- C1: the claim fails on the code.  With every handler succeeding and the
context cancelled from iteration 3 on — i.e. cancelled right after
`SaveNetwork` stored the blob — the top-of-loop cancellation check rewrites
the state to `Shutdown` on every subsequent iteration, so the
`RestoreNetwork` case body (TeardownRouting / RestoreConfig / DestroyTAP)
never executes and `Run` never returns: `savedNet` is stored, yet
`RestoreConfig` is invoked zero times on every finite prefix of the
(non-terminating) run. -/
theorem c1_cancelSkipsRestore :
    (Engine.iter envC1 3 0 Engine.start).savedNet = true ∧
    (∀ n, Engine.runFuel envC1 n 0 Engine.start = none) ∧
    (∀ n, (Engine.iter envC1 n 0 Engine.start).restoreRuns = 0) := by
  refine ⟨by decide, ?_, ?_⟩
  · intro n
    match n with
    | 0 => rfl
    | 1 => rfl
    | 2 => rfl
    | 3 => rfl
    | (m + 4) =>
      show Engine.runFuel envC1 (m + 1) 3 (Engine.iter envC1 3 0 Engine.start) = none
      exact runFuel_none_of_cancelled envC1 (m + 1) 3 _ envC1_cancelled_from_three
  · intro n
    match n with
    | 0 => rfl
    | 1 => rfl
    | 2 => rfl
    | 3 => rfl
    | (m + 4) =>
      show (Engine.iter envC1 (m + 1) 3 (Engine.iter envC1 3 0 Engine.start)).restoreRuns = 0
      rw [(iter_ghost_of_cancelled envC1 (m + 1) 3 _ envC1_cancelled_from_three).1]
      decide

/-- C2: the first half of the claim holds — cancellation before `Running`
steps the engine into `Shutdown` (after one iteration the shutdown-entry
count is 1) — but the second half fails on the code: with the context
permanently cancelled the engine does *not* run the remaining states; the
top-of-loop check re-enters `Shutdown` forever, `RestoreNetwork` and
`Cleanup` never execute, and `Run` never returns. -/
theorem c2_shutdownAbsorbsCancel :
    (Engine.iter envC2 1 0 Engine.start).shutdownEnters = 1 ∧
    (Engine.iter envC2 1 0 Engine.start).state = LState.restoreNetwork ∧
    (∀ n, Engine.runFuel envC2 n 0 Engine.start = none) ∧
    (∀ n, (Engine.iter envC2 n 0 Engine.start).restoreRuns = 0 ∧
          (Engine.iter envC2 n 0 Engine.start).cleanupRuns = 0) := by
  refine ⟨by decide, by decide, ?_, ?_⟩
  · intro n
    exact runFuel_none_of_cancelled envC2 n 0 Engine.start
      (fun u hu => envC2_cancelled u hu)
  · intro n
    exact iter_ghost_of_cancelled envC2 n 0 Engine.start
      (fun u hu => envC2_cancelled u hu)

/-- C3 counterexample: an error injected in `CheckPrivileges` — a state the
claim covers — makes `Run` return the error directly: the failsafe is never
activated and `Shutdown` never begins, so the engine does not "activate the
Failsafe before transitioning to Shutdown" for this error. -/
theorem c3_counterexample :
    (Engine.runFuel envC3 2 0 Engine.start).map
      (fun p => (p.1.failsafe, p.1.shutdownEnters, p.1.fsAtShutdown, p.2)) =
      some (false, 0, none, true) := by
  decide

/-- C3 (amended): for every error produced by a fatal-error state among
`SaveNetwork`, `CreateTAP`, `LaunchVM`, `WaitTAP`, `ConfigureTAP`,
`WaitBootstrap` (i.e. excluding `CheckPrivileges`, whose error returns
without entering `Shutdown`, and `FlushDNS`, whose error is non-fatal), the
engine activates the Failsafe before transitioning to `Shutdown`, so the
failsafe flag is true at the moment the `Shutdown` state begins. -/
theorem c3_failsafeBeforeShutdown (env : Env) (t : Nat) (e : Engine) (s : LState)
    (hs : s = LState.saveNetwork ∨ s = LState.createTAP ∨ s = LState.launchVM ∨
          s = LState.waitTAP ∨ s = LState.configureTAP ∨ s = LState.waitBootstrap)
    (hst : e.state = s) (herr : env.errAt s = true)
    (hc : env.cancelled t = false) :
    ∃ e', Engine.runStep env t e = StepRes.next e' ∧
      e'.state = LState.shutdown ∧ e'.failsafe = true ∧
      (e.fsAtShutdown = none → e'.fsAtShutdown = some true) := by
  refine ⟨e.errStep, ?_, rfl, rfl, ?_⟩
  · unfold Engine.runStep
    rw [hc]
    rcases hs with rfl | rfl | rfl | rfl | rfl | rfl <;>
      simp [hst, Engine.fallible, herr]
  · intro hnone
    simp [Engine.errStep, Engine.transition, Engine.activateFS, hnone]

/-- C3 witness: the amended statement at a concrete engine sitting in
`SaveNetwork` whose save fails. -/
theorem c3_failsafeBeforeShutdown_witness :
    ∃ e', Engine.runStep envC3W 0 engineAtSave = StepRes.next e' ∧
      e'.state = LState.shutdown ∧ e'.failsafe = true ∧
      (engineAtSave.fsAtShutdown = none → e'.fsAtShutdown = some true) :=
  c3_failsafeBeforeShutdown envC3W 0 engineAtSave LState.saveNetwork
    (Or.inl rfl) (by decide) (by decide) (by decide)

/-! ## Claim theorems: DNS relay -/

/-- C7: a reply shorter than two octets, or whose first two octets differ
from the query's, is discarded — nothing is written to the tunnel for that
query; and whenever a packet is written, the reply's first two octets equal
the query's and the packet swaps source and destination (address and port)
and carries the reply as payload. -/
theorem c7_dnsTransactionId :
    (∀ (ip : IPv4Header) (udp : UdpHeader) (query bytes : List Nat) (acq : Bool),
      ((bytes.take 4096).length < 2 ∨
       (bytes.take 4096).getD 0 0 % 256 ≠ query.getD 0 0 % 256 ∨
       (bytes.take 4096).getD 1 0 % 256 ≠ query.getD 1 0 % 256) →
      dnsHandlePacket ip udp query (DnsUpstream.reply bytes) acq = none) ∧
    (∀ (ip : IPv4Header) (udp : UdpHeader) (query : List Nat)
       (up : DnsUpstream) (acq : Bool) (pkt : UdpPacketSpec),
      dnsHandlePacket ip udp query up acq = some pkt →
      pkt.payload.getD 0 0 % 256 = query.getD 0 0 % 256 ∧
      pkt.payload.getD 1 0 % 256 = query.getD 1 0 % 256 ∧
      pkt.srcAddr = ip.destAddress ∧ pkt.dstAddr = ip.sourceAddress ∧
      pkt.srcPort = udp.destPort ∧ pkt.dstPort = udp.sourcePort) := by
  constructor
  · intro ip udp query bytes acq hbad
    have hfwd : forwardDnsQuery query (DnsUpstream.reply bytes) = none := by
      simp only [forwardDnsQuery]
      split_ifs with h1 h2 h3 h4 <;> try rfl
      rcases hbad with h | h | h
      · exact absurd h h2
      · exact absurd h h3
      · exact absurd h h4
    cases acq with
    | false => rfl
    | true => simp [dnsHandlePacket, hfwd]
  · intro ip udp query up acq pkt hsome
    unfold dnsHandlePacket at hsome
    cases acq with
    | false => simp at hsome
    | true =>
      simp only [Bool.not_true, Bool.false_eq_true, if_false] at hsome
      cases hfwd : forwardDnsQuery query up with
      | none => rw [hfwd] at hsome; simp at hsome
      | some resp =>
        rw [hfwd] at hsome
        have hresp : resp.getD 0 0 % 256 = query.getD 0 0 % 256 ∧
            resp.getD 1 0 % 256 = query.getD 1 0 % 256 := by
          simp only [forwardDnsQuery] at hfwd
          cases up with
          | timeout => split_ifs at hfwd <;> simp at hfwd
          | reply bytes =>
            split_ifs at hfwd with h1 h2 h3 h4 <;> try simp at hfwd
            obtain ⟨hlen, h0, h1', heq⟩ := hfwd
            subst heq
            constructor
            · simpa [List.getD_eq_getElem?_getD, List.getElem?_take] using h0
            · simpa [List.getD_eq_getElem?_getD, List.getElem?_take] using h1'
        obtain rfl : pkt = _ := (Option.some.injEq _ _).mp hsome.symm
        exact ⟨hresp.1, hresp.2, rfl, rfl, rfl, rfl⟩

/-- C7 witness: a matching 32-byte reply to a query with ID 0xABCD is
written back swapped; all hypotheses discharged at the concrete input. -/
theorem c7_dnsTransactionId_witness :
    pktDnsW.payload.getD 0 0 % 256 = ([0xAB, 0xCD, 1, 0] : List Nat).getD 0 0 % 256 ∧
    pktDnsW.payload.getD 1 0 % 256 = ([0xAB, 0xCD, 1, 0] : List Nat).getD 1 0 % 256 ∧
    pktDnsW.srcAddr = ipW.destAddress ∧ pktDnsW.dstAddr = ipW.sourceAddress ∧
    pktDnsW.srcPort = udpHdrDnsW.destPort ∧ pktDnsW.dstPort = udpHdrDnsW.sourcePort :=
  c7_dnsTransactionId.2 ipW udpHdrDnsW [0xAB, 0xCD, 1, 0]
    (DnsUpstream.reply dnsReplyW) true pktDnsW (by decide)

/-! ## Claim theorems: Windows RestoreConfig -/

/-- C8: with a session key present, `RestoreConfig` returns an error
without executing the blob whenever the stored HMAC is absent or does not
match the recomputed one; it likewise returns an error without executing
whenever some non-empty, non-comment line's leading token is outside the
fixed allowlist; and the blob is executed only when both checks pass —
for every HMAC function, manager, blob, and write/exec outcome. -/
theorem c8_restoreConfigGuards (hm : List Nat → List String → String)
    (m : WindowsManager) (cfg : SavedConfig) (wOk eOk : Bool) :
    (∀ k, m.sessionKey = some k → (cfg.hmac = "" ∨ hm k cfg.data ≠ cfg.hmac) →
      restoreConfig hm m (some cfg) wOk eOk = { ok := false, executed := false }) ∧
    (validateNetshDump cfg.data = false →
      (restoreConfig hm m (some cfg) wOk eOk).executed = false ∧
      (restoreConfig hm m (some cfg) wOk eOk).ok = false) ∧
    ((restoreConfig hm m (some cfg) wOk eOk).executed = true →
      verifyHMAC hm m cfg.data cfg.hmac = true ∧
      validateNetshDump cfg.data = true) := by
  refine ⟨?_, ?_, ?_⟩
  · intro k hk hbad
    have hv : verifyHMAC hm m cfg.data cfg.hmac = false := by
      simp only [verifyHMAC, hk]
      rcases hbad with h | h
      · rw [if_pos h]
      · by_cases hemp : cfg.hmac = ""
        · rw [if_pos hemp]
        · rw [if_neg hemp]
          simpa using h
    by_cases hp : cfg.platform ≠ "windows" <;>
      simp [restoreConfig, hp, hv]
  · intro hval
    by_cases hp : cfg.platform ≠ "windows"
    · simp [restoreConfig, hp]
    · cases hv : verifyHMAC hm m cfg.data cfg.hmac <;>
        simp [restoreConfig, hp, hv, hval]
  · intro hex
    by_cases hp : cfg.platform ≠ "windows"
    · simp [restoreConfig, hp] at hex
    · cases hv : verifyHMAC hm m cfg.data cfg.hmac with
      | false => simp [restoreConfig, hp, hv] at hex
      | true =>
        cases hval : validateNetshDump cfg.data with
        | false => simp [restoreConfig, hp, hv, hval] at hex
        | true => exact ⟨rfl, rfl⟩

/-- C8 witness: a concrete manager with a session key rejects, without
executing, a blob whose stored HMAC differs from the recomputed one. -/
theorem c8_restoreConfigGuards_witness :
    restoreConfig hmW winMgrW (some cfgBadHmac) true true =
      { ok := false, executed := false } :=
  (c8_restoreConfigGuards hmW winMgrW cfgBadHmac true true).1 [1, 2, 3]
    (by decide) (Or.inr (by decide))

/-! ## Lemmas: packet codec round-trips -/

/-- IPv4 round-trip on a 20-byte header (hence IHL = 5) whose stored
checksum equals the one recomputed over the checksum-zeroed bytes. -/
theorem ipv4_roundtrip
    (b0 b1 b2 b3 b4 b5 b6 b7 b8 b9 b10 b11 b12 b13 b14 b15 b16 b17 b18 b19 : Nat)
    (hb : b0 < 256 ∧ b1 < 256 ∧ b2 < 256 ∧ b3 < 256 ∧ b4 < 256 ∧ b5 < 256 ∧
          b6 < 256 ∧ b7 < 256 ∧ b8 < 256 ∧ b9 < 256 ∧ b10 < 256 ∧ b11 < 256 ∧
          b12 < 256 ∧ b13 < 256 ∧ b14 < 256 ∧ b15 < 256 ∧ b16 < 256 ∧
          b17 < 256 ∧ b18 < 256 ∧ b19 < 256)
    (h : IPv4Header)
    (hp : ipv4Parse [b0, b1, b2, b3, b4, b5, b6, b7, b8, b9, b10, b11, b12,
      b13, b14, b15, b16, b17, b18, b19] 0 = some h)
    (hck : ipChecksum [b0, b1, b2, b3, b4, b5, b6, b7, b8, b9, 0, 0, b12,
      b13, b14, b15, b16, b17, b18, b19] = b10 * 256 + b11) :
    ipv4ToBytes h = [b0, b1, b2, b3, b4, b5, b6, b7, b8, b9, b10, b11, b12,
      b13, b14, b15, b16, b17, b18, b19] := by
  obtain ⟨hb0, hb1, hb2, hb3, hb4, hb5, hb6, hb7, hb8, hb9, hb10, hb11,
    hb12, hb13, hb14, hb15, hb16, hb17, hb18, hb19⟩ := hb
  simp only [ipv4Parse, List.getD_cons_zero, List.getD_cons_succ,
    List.length_cons, List.length_nil] at hp
  norm_num at hp
  obtain ⟨hver, hihl5, hihl4, hrec⟩ := hp
  subst hrec
  simp only [ipv4ToBytes, List.getD_cons_zero, List.getD_cons_succ]
  rw [show b0 % 16 * 4 - 20 = 0 from by omega]
  simp only [List.replicate, List.append_nil]
  rw [show (b0 % 256 / 16 * 16 + b0 % 16) % 256 = b0 from by omega,
    show b1 % 256 % 256 = b1 from by omega,
    show (b2 % 256 * 256 + b3 % 256) / 256 % 256 = b2 from by omega,
    show (b2 % 256 * 256 + b3 % 256) % 256 = b3 from by omega,
    show (b4 % 256 * 256 + b5 % 256) / 256 % 256 = b4 from by omega,
    show (b4 % 256 * 256 + b5 % 256) % 256 = b5 from by omega,
    show ((b6 % 256 * 256 + b7 % 256) / 8192 * 8192 +
      (b6 % 256 * 256 + b7 % 256) % 8192) / 256 % 256 = b6 from by omega,
    show ((b6 % 256 * 256 + b7 % 256) / 8192 * 8192 +
      (b6 % 256 * 256 + b7 % 256) % 8192) % 256 = b7 from by omega,
    show b8 % 256 % 256 = b8 from by omega,
    show b9 % 256 % 256 = b9 from by omega,
    show b12 % 256 % 256 = b12 from by omega,
    show b13 % 256 % 256 = b13 from by omega,
    show b14 % 256 % 256 = b14 from by omega,
    show b15 % 256 % 256 = b15 from by omega,
    show b16 % 256 % 256 = b16 from by omega,
    show b17 % 256 % 256 = b17 from by omega,
    show b18 % 256 % 256 = b18 from by omega,
    show b19 % 256 % 256 = b19 from by omega]
  rw [hck,
    show (b10 * 256 + b11) / 256 % 256 = b10 from by omega,
    show (b10 * 256 + b11) % 256 = b11 from by omega]
  rfl

/-- TCP round-trip on a 20-byte header with data offset 5: `toBytes`
serializes the stored checksum unchanged, so the identity needs no
checksum hypothesis. -/
theorem tcp_roundtrip
    (c0 c1 c2 c3 c4 c5 c6 c7 c8 c9 c10 c11 c12 c13 c14 c15 c16 c17 c18 c19 : Nat)
    (hb : c0 < 256 ∧ c1 < 256 ∧ c2 < 256 ∧ c3 < 256 ∧ c4 < 256 ∧ c5 < 256 ∧
          c6 < 256 ∧ c7 < 256 ∧ c8 < 256 ∧ c9 < 256 ∧ c10 < 256 ∧ c11 < 256 ∧
          c12 < 256 ∧ c13 < 256 ∧ c14 < 256 ∧ c15 < 256 ∧ c16 < 256 ∧
          c17 < 256 ∧ c18 < 256 ∧ c19 < 256)
    (hdo : c12 / 16 = 5)
    (h : TcpHeader)
    (hp : tcpParse [c0, c1, c2, c3, c4, c5, c6, c7, c8, c9, c10, c11, c12,
      c13, c14, c15, c16, c17, c18, c19] 0 = some h) :
    tcpToBytes h = [c0, c1, c2, c3, c4, c5, c6, c7, c8, c9, c10, c11, c12,
      c13, c14, c15, c16, c17, c18, c19] := by
  obtain ⟨hb0, hb1, hb2, hb3, hb4, hb5, hb6, hb7, hb8, hb9, hb10, hb11,
    hb12, hb13, hb14, hb15, hb16, hb17, hb18, hb19⟩ := hb
  simp only [tcpParse, List.getD_cons_zero, List.getD_cons_succ,
    List.length_cons, List.length_nil] at hp
  norm_num at hp
  obtain ⟨hdo5, hrec⟩ := hp
  subst hrec
  simp only [tcpToBytes]
  rw [show c12 % 256 / 16 * 4 - 20 = 0 from by omega]
  simp only [List.replicate, List.append_nil, List.cons.injEq]
  and_intros <;> first | trivial | omega

/-- UDP round-trip on the 8 header bytes (checksum serialized as stored). -/
theorem udp_roundtrip
    (d0 d1 d2 d3 d4 d5 d6 d7 : Nat)
    (hb : d0 < 256 ∧ d1 < 256 ∧ d2 < 256 ∧ d3 < 256 ∧ d4 < 256 ∧ d5 < 256 ∧
          d6 < 256 ∧ d7 < 256)
    (h : UdpHeader)
    (hp : udpParse [d0, d1, d2, d3, d4, d5, d6, d7] 0 = some h) :
    udpToBytes h = [d0, d1, d2, d3, d4, d5, d6, d7] := by
  obtain ⟨hb0, hb1, hb2, hb3, hb4, hb5, hb6, hb7⟩ := hb
  simp only [udpParse, List.getD_cons_zero, List.getD_cons_succ,
    List.length_cons, List.length_nil] at hp
  norm_num at hp
  subst hp
  simp only [udpToBytes, List.cons.injEq]
  and_intros <;> first | trivial | omega

/-! ## Claim theorems: packet codec round-trip -/

/-- C6 counterexample: a 20-byte IPv4 header whose stored checksum field is
zero is accepted by `parse`, but serializing the parsed header recomputes
the checksum, so the output differs from the input — round-trip identity
fails for an input that `parse` accepts. -/
theorem c6_counterexample :
    (ipv4Parse bytesIpZeroCk 0).isSome = true ∧
    (ipv4Parse bytesIpZeroCk 0).map ipv4ToBytes ≠ some bytesIpZeroCk :=
  ⟨by decide, by decide⟩

/-- C6 (amended): round-trip identity holds for each codec on the inputs
where the serializer reproduces the parsed bytes: IPv4 headers of exactly
20 bytes (IHL = 5) whose stored checksum equals the recomputed one; TCP
headers of exactly 20 bytes with data offset 5 (the TCP serializer writes
the stored checksum unchanged rather than recomputing it); and 8-byte UDP
headers (checksum likewise serialized as stored). -/
theorem c6_roundtrip_amended :
    (∀ (b0 b1 b2 b3 b4 b5 b6 b7 b8 b9 b10 b11 b12 b13 b14 b15 b16 b17 b18 b19 : Nat),
      (b0 < 256 ∧ b1 < 256 ∧ b2 < 256 ∧ b3 < 256 ∧ b4 < 256 ∧ b5 < 256 ∧
       b6 < 256 ∧ b7 < 256 ∧ b8 < 256 ∧ b9 < 256 ∧ b10 < 256 ∧ b11 < 256 ∧
       b12 < 256 ∧ b13 < 256 ∧ b14 < 256 ∧ b15 < 256 ∧ b16 < 256 ∧
       b17 < 256 ∧ b18 < 256 ∧ b19 < 256) →
      ∀ h, ipv4Parse [b0, b1, b2, b3, b4, b5, b6, b7, b8, b9, b10, b11, b12,
        b13, b14, b15, b16, b17, b18, b19] 0 = some h →
      ipChecksum [b0, b1, b2, b3, b4, b5, b6, b7, b8, b9, 0, 0, b12,
        b13, b14, b15, b16, b17, b18, b19] = b10 * 256 + b11 →
      ipv4ToBytes h = [b0, b1, b2, b3, b4, b5, b6, b7, b8, b9, b10, b11, b12,
        b13, b14, b15, b16, b17, b18, b19]) ∧
    (∀ (c0 c1 c2 c3 c4 c5 c6 c7 c8 c9 c10 c11 c12 c13 c14 c15 c16 c17 c18 c19 : Nat),
      (c0 < 256 ∧ c1 < 256 ∧ c2 < 256 ∧ c3 < 256 ∧ c4 < 256 ∧ c5 < 256 ∧
       c6 < 256 ∧ c7 < 256 ∧ c8 < 256 ∧ c9 < 256 ∧ c10 < 256 ∧ c11 < 256 ∧
       c12 < 256 ∧ c13 < 256 ∧ c14 < 256 ∧ c15 < 256 ∧ c16 < 256 ∧
       c17 < 256 ∧ c18 < 256 ∧ c19 < 256) →
      c12 / 16 = 5 →
      ∀ h, tcpParse [c0, c1, c2, c3, c4, c5, c6, c7, c8, c9, c10, c11, c12,
        c13, c14, c15, c16, c17, c18, c19] 0 = some h →
      tcpToBytes h = [c0, c1, c2, c3, c4, c5, c6, c7, c8, c9, c10, c11, c12,
        c13, c14, c15, c16, c17, c18, c19]) ∧
    (∀ (d0 d1 d2 d3 d4 d5 d6 d7 : Nat),
      (d0 < 256 ∧ d1 < 256 ∧ d2 < 256 ∧ d3 < 256 ∧ d4 < 256 ∧ d5 < 256 ∧
       d6 < 256 ∧ d7 < 256) →
      ∀ h, udpParse [d0, d1, d2, d3, d4, d5, d6, d7] 0 = some h →
      udpToBytes h = [d0, d1, d2, d3, d4, d5, d6, d7]) :=
  ⟨fun b0 b1 b2 b3 b4 b5 b6 b7 b8 b9 b10 b11 b12 b13 b14 b15 b16 b17 b18 b19
      hb h hp hck =>
    ipv4_roundtrip b0 b1 b2 b3 b4 b5 b6 b7 b8 b9 b10 b11 b12 b13 b14 b15
      b16 b17 b18 b19 hb h hp hck,
   fun c0 c1 c2 c3 c4 c5 c6 c7 c8 c9 c10 c11 c12 c13 c14 c15 c16 c17 c18 c19
      hb hdo h hp =>
    tcp_roundtrip c0 c1 c2 c3 c4 c5 c6 c7 c8 c9 c10 c11 c12 c13 c14 c15
      c16 c17 c18 c19 hb hdo h hp,
   fun d0 d1 d2 d3 d4 d5 d6 d7 hb h hp =>
    udp_roundtrip d0 d1 d2 d3 d4 d5 d6 d7 hb h hp⟩

/-- C6 witness: the amended round-trip at concrete accepted inputs for all
three codecs. -/
theorem c6_roundtrip_witness :
    ipv4ToBytes hdrIpW = bytesIpW ∧
    tcpToBytes hdrTcpW = bytesTcpW ∧
    udpToBytes hdrUdpW = bytesUdpW :=
  ⟨c6_roundtrip_amended.1 0x45 0 0 0x14 0 0 0 0 0x40 6 0x66 0xE2 10 0 0 1 10 0 0 2
      (by decide) hdrIpW (by decide) (by decide),
   c6_roundtrip_amended.2.1 1 2 3 4 5 6 7 8 9 10 11 12 0x50 0x12 13 14 15 16 17 18
      (by decide) (by decide) hdrTcpW (by decide),
   c6_roundtrip_amended.2.2 1 2 3 4 5 6 7 8 (by decide) hdrUdpW (by decide)⟩

/-! ## Lemmas: ring log buffer -/

theorem take_set_succ {α : Type} :
    ∀ (xs : List α) (n : Nat) (x : α), n < xs.length →
    (xs.set n x).take (n + 1) = xs.take n ++ [x]
  | [], n, x, h => by simp at h
  | a :: as, 0, x, _ => by simp
  | a :: as, n + 1, x, h => by
    simp only [List.set_cons_succ, List.take_succ_cons, List.cons_append]
    rw [take_set_succ as n x (by simpa using h)]

theorem drop_set_succ {α : Type} :
    ∀ (xs : List α) (n : Nat) (x : α), (xs.set n x).drop (n + 1) = xs.drop (n + 1)
  | [], _, _ => by simp
  | a :: as, 0, x => by simp
  | a :: as, n + 1, x => by
    simp only [List.set_cons_succ, List.drop_succ_cons]
    exact drop_set_succ as n x

theorem set_last_eq {α : Type} :
    ∀ (xs : List α) (n : Nat) (x : α), xs.length = n + 1 →
    xs.set n x = xs.take n ++ [x]
  | [], n, x, h => by simp at h
  | a :: as, 0, x, h => by
    have : as = [] := by simpa using h
    simp [this]
  | a :: as, n + 1, x, h => by
    simp only [List.set_cons_succ, List.take_succ_cons, List.cons_append]
    rw [set_last_eq as n x (by simpa using h)]

theorem lastN_of_le {α : Type} (n : Nat) (l : List α) (h : l.length ≤ n) :
    lastN n l = l := by
  unfold lastN
  rw [Nat.sub_eq_zero_of_le h, List.drop_zero]

theorem lastN_length_le {α : Type} (n : Nat) (l : List α) :
    (lastN n l).length ≤ n := by
  unfold lastN
  rw [List.length_drop]
  omega

theorem lastN_snoc_lt {α : Type} (n : Nat) (l : List α) (a : α)
    (h : l.length < n) : lastN n (l ++ [a]) = lastN n l ++ [a] := by
  rw [lastN_of_le n l (Nat.le_of_lt h), lastN_of_le]
  simp
  omega

theorem lastN_snoc_ge {α : Type} (n : Nat) (l : List α) (a : α)
    (hn : 0 < n) (h : n ≤ l.length) :
    lastN n (l ++ [a]) = (lastN n l).drop 1 ++ [a] := by
  unfold lastN
  rw [List.length_append]
  simp only [List.length_singleton]
  rw [List.drop_append_of_le_length (by omega), List.drop_drop]
  congr 2
  omega

theorem pushLine_inv (c : Nat) (hc : 0 < c) (w : List (List Char))
    (r : RingWriter) (l : List Char) (h : RWInv c w r) :
    RWInv c (w ++ [l]) (r.pushLine l) := by
  obtain ⟨lines, cap, pos, full, carry⟩ := r
  simp only [RWInv] at h
  obtain ⟨hcap, hlen, hmode, hcont⟩ := h
  subst hcap
  simp only [RingWriter.linesOut] at hcont
  cases full with
  | false =>
    simp only [Bool.false_eq_true, if_false, Bool.not_false, if_pos] at hmode hcont
    obtain ⟨hpos, hwlt⟩ := hmode
    subst hpos
    by_cases hwrap : cap ≤ w.length + 1
    · simp only [RingWriter.pushLine, if_pos hwrap]
      refine ⟨rfl, by simpa using hlen, by simp; omega, ?_⟩
      simp only [RingWriter.linesOut]
      simp only [Bool.not_true, Bool.false_eq_true, if_false,
        List.drop_zero, List.take_zero, List.append_nil]
      rw [set_last_eq lines w.length l (by omega), hcont,
        lastN_of_le cap w (by omega),
        lastN_of_le cap (w ++ [l]) (by simp; omega)]
    · simp only [RingWriter.pushLine, if_neg hwrap]
      refine ⟨rfl, by simpa using hlen, by simp; omega, ?_⟩
      simp only [RingWriter.linesOut]
      simp only [Bool.not_false, if_pos]
      rw [take_set_succ lines w.length l (by omega), hcont,
        lastN_of_le cap w (by omega),
        lastN_of_le cap (w ++ [l]) (by simp; omega)]
  | true =>
    simp only [if_pos rfl, Bool.not_true, Bool.false_eq_true, if_false] at hmode hcont
    obtain ⟨hpos, hcw⟩ := hmode
    by_cases hwrap : cap ≤ pos + 1
    · simp only [RingWriter.pushLine, if_pos hwrap]
      refine ⟨rfl, by simpa using hlen, by simp; omega, ?_⟩
      simp only [RingWriter.linesOut]
      simp only [Bool.not_true, Bool.false_eq_true, if_false,
        List.drop_zero, List.take_zero, List.append_nil]
      rw [set_last_eq lines pos l (by omega),
        lastN_snoc_ge cap w l hc (by omega), ← hcont,
        List.drop_append_of_le_length (by rw [List.length_drop]; omega),
        List.drop_drop,
        show pos + 1 = cap from by omega,
        List.drop_eq_nil_of_le (by omega)]
      simp
    · simp only [RingWriter.pushLine, if_neg hwrap]
      refine ⟨rfl, by simpa using hlen, by simp; omega, ?_⟩
      simp only [RingWriter.linesOut]
      simp only [Bool.not_true, Bool.false_eq_true, if_false]
      rw [take_set_succ lines pos l (by omega), drop_set_succ lines pos l,
        lastN_snoc_ge cap w l hc (by omega), ← hcont,
        List.drop_append_of_le_length (by rw [List.length_drop]; omega),
        List.drop_drop]
      simp

theorem foldl_pushLine_inv (c : Nat) (hc : 0 < c) :
    ∀ (ls : List (List Char)) (w : List (List Char)) (r : RingWriter),
    RWInv c w r → RWInv c (w ++ ls) (ls.foldl RingWriter.pushLine r)
  | [], w, r, h => by simpa using h
  | l :: ls, w, r, h => by
    have h1 := pushLine_inv c hc w r l h
    have h2 := foldl_pushLine_inv c hc ls (w ++ [l]) (r.pushLine l) h1
    simpa using h2

theorem foldl_pushLine_carry :
    ∀ (ls : List (List Char)) (r : RingWriter),
    (ls.foldl RingWriter.pushLine r).carry = r.carry
  | [], r => rfl
  | l :: ls, r => by
    rw [List.foldl_cons, foldl_pushLine_carry ls]
    unfold RingWriter.pushLine
    by_cases hw : r.capacity ≤ r.pos + 1 <;> simp [hw]

theorem foldl_pushLine_capacity :
    ∀ (ls : List (List Char)) (r : RingWriter),
    (ls.foldl RingWriter.pushLine r).capacity = r.capacity
  | [], r => rfl
  | l :: ls, r => by
    rw [List.foldl_cons, foldl_pushLine_capacity ls]
    unfold RingWriter.pushLine
    by_cases hw : r.capacity ≤ r.pos + 1 <;> simp [hw]

theorem splitNl_append (s t : List Char) :
    splitNl (s ++ t) =
      ((splitNl s).1 ++ (splitNl ((splitNl s).2 ++ t)).1,
       (splitNl ((splitNl s).2 ++ t)).2) := by
  induction s with
  | nil => simp [splitNl]
  | cons c s ih =>
    by_cases hc : c = '\n'
    · subst hc
      simp [splitNl, ih]
    · simp only [List.cons_append, splitNl, ih, hc, if_neg]
      rcases h1 : (splitNl s).1 with _ | ⟨sl, srest⟩ <;>
        rcases h2 : (splitNl ((splitNl s).2 ++ t)).1 with _ | ⟨xl, xrest⟩ <;>
          simp [splitNl, h1, h2, hc] <;> rw [ih] <;> simp [h1, h2]

theorem rwinv_carry (c : Nat) (w : List (List Char)) (r : RingWriter)
    (x : List Char) : RWInv c w { r with carry := x } ↔ RWInv c w r :=
  Iff.rfl

theorem write_inv (c : Nat) (hc : 0 < c) (s p : List Char) (r : RingWriter)
    (h : RWInv c (splitNl s).1 r) (hcarry : r.carry = (splitNl s).2) :
    RWInv c (splitNl (s ++ p)).1 (r.write p) ∧
    (r.write p).carry = (splitNl (s ++ p)).2 := by
  have hsp := splitNl_append s p
  rcases hX : splitNl ((splitNl s).2 ++ p) with ⟨nl, rest⟩
  rw [hX] at hsp
  unfold RingWriter.write
  rw [hcarry, hX]
  have hfold : RWInv c ((splitNl s).1 ++ nl)
      (nl.foldl RingWriter.pushLine { r with carry := [] }) :=
    foldl_pushLine_inv c hc nl (splitNl s).1 { r with carry := [] }
      ((rwinv_carry c (splitNl s).1 r []).mpr h)
  constructor
  · rw [hsp]
    exact (rwinv_carry c _ _ rest).mpr hfold
  · rw [hsp]

theorem writeAll_inv (c : Nat) (hc : 0 < c) :
    ∀ (ps : List (List Char)) (s : List Char) (r : RingWriter),
    RWInv c (splitNl s).1 r → r.carry = (splitNl s).2 →
    RWInv c (splitNl (s ++ ps.flatten)).1 (r.writeAll ps) ∧
    (r.writeAll ps).carry = (splitNl (s ++ ps.flatten)).2
  | [], s, r, h, hcarry => by
    simpa [RingWriter.writeAll] using And.intro h hcarry
  | p :: ps, s, r, h, hcarry => by
    obtain ⟨h1, hc1⟩ := write_inv c hc s p r h hcarry
    have h2 := writeAll_inv c hc ps (s ++ p) (r.write p) h1 hc1
    simpa [RingWriter.writeAll, List.append_assoc] using h2

/-- C9: for every sequence of `Write` calls on a ring buffer of positive
capacity `c`, `Lines()` returns at most `c` entries, and the entries are
exactly the most recent complete lines of the written stream, in
chronological (oldest-first) order. -/
theorem c9_ringLines (c : Nat) (hc : 0 < c) (ps : List (List Char)) :
    ((newRingWriter c).writeAll ps).linesOut =
      lastN c (splitNl ps.flatten).1 ∧
    ((newRingWriter c).writeAll ps).linesOut.length ≤ c := by
  have hinit : RWInv c (splitNl ([] : List Char)).1 (newRingWriter c) := by
    refine ⟨rfl, by simp [newRingWriter], ?_, ?_⟩
    · simp [newRingWriter, splitNl]
      omega
    · simp [newRingWriter, RingWriter.linesOut, splitNl, lastN]
  have h := (writeAll_inv c hc ps [] (newRingWriter c) hinit rfl).1
  simp only [List.nil_append] at h
  obtain ⟨-, -, -, hcont⟩ := h
  exact ⟨hcont, by rw [hcont]; exact lastN_length_le c _⟩

/-- C9 witness: capacity 2, writes "a\nb" then "\nc\nd\n"; `Lines()` is the
last two complete lines, oldest first. -/
theorem c9_ringLines_witness :
    ((newRingWriter 2).writeAll psW).linesOut =
      lastN 2 (splitNl psW.flatten).1 ∧
    ((newRingWriter 2).writeAll psW).linesOut.length ≤ 2 :=
  c9_ringLines 2 (by decide) psW

end TorVM

